import Mathlib

set_option maxHeartbeats 1000000
set_option maxRecDepth 4000

namespace ShowPickle

/-- Values flowing through the unpickler's operand stack and appearing in the
final dumped tree.  Decoded text is kept as a list of Unicode code points
(`pstr`), because surrogate-pass decoding can produce lone surrogates that a
`String` of scalar values cannot hold.  `fakeClass` embeds `FakeClass` values
and `fakeObject` embeds `FakeObject` values (module, name, args, state); a
`state` of `pnone` plays the role of Python's `None` default (the source notes
it does not distinguish "state never set" from "state set to None"). -/
inductive PValue where
  | pnone : PValue
  | pint : Int → PValue
  | pstr : List Nat → PValue
  | ptuple : List PValue → PValue
  | fakeClass : String → String → PValue
  | fakeObject : String → String → List PValue → PValue → PValue

/-- Test for Python `is None` on an embedded value. -/
def PValue.isNone : PValue → Bool
  | .pnone => true
  | _ => false

/-- Embedding of `FakeObject`: `module`, `name`, `args` as in `__init__`;
`state` starts as `pnone` (Python `None`). -/
structure FakeObject where
  module : String
  name : String
  args : List PValue
  state : PValue := .pnone

/-- View a `FakeObject` as a stack value. -/
def FakeObject.toPValue (o : FakeObject) : PValue :=
  .fakeObject o.module o.name o.args o.state

/-- Embedding of `FakeObject.__setstate__`: unconditionally overwrite the
`state` attribute with the given value. -/
def FakeObject.setstate (o : FakeObject) (s : PValue) : FakeObject :=
  { o with state := s }

/-- Embedding of `FakeClass`: just the `(module, name)` pair. -/
structure FakeClass where
  module : String
  name : String
  deriving DecidableEq

/-- Embedding of `FakeClass.__call__`: build a `FakeObject` holding the
argument tuple verbatim. -/
def FakeClass.call (c : FakeClass) (args : List PValue) : FakeObject :=
  { module := c.module, name := c.name, args := args }

/-- Embedding of `FakeClass.fake_new`: build a `FakeObject` from `args[1:]`,
dropping the leading argument (the class token of fast-construction opcodes). -/
def FakeClass.fake_new (c : FakeClass) (args : List PValue) : FakeObject :=
  { module := c.module, name := c.name, args := args.drop 1 }

/-- Embedding of `DumpUnpickler.find_class`: always return a `FakeClass` for
the `(module, name)` pair, with no lookup and no failure mode. -/
def DumpUnpickler.find_class (module name : String) : FakeClass :=
  { module := module, name := name }

/-- Embedding of `DumpUnpickler.persistent_load`: a `FakeObject` with the
fixed identity `("pers", "obj")` holding the persistent id. -/
def DumpUnpickler.persistent_load (pid : PValue) : FakeObject :=
  { module := "pers", name := "obj", args := [pid] }

/-- Code points of an ASCII/Unicode Lean string, used for embedded Python
`str` values such as exception messages. -/
def strCodes (s : String) : List Nat :=
  s.data.map Char.toNat

/-- Rebuild a Lean string from code points (used for `GLOBAL` opcode names,
which are strictly decoded and therefore contain no surrogates). -/
def stringOfCodes (cs : List Nat) : String :=
  String.mk (cs.map Char.ofNat)

/-- Embedding of CPython UTF-8 decoding, `str(bytes, "utf-8", handler)`.
When `surrogatepass` is `false` this is strict UTF-8 (RFC 3629): two-byte
sequences `C2..DF`, three-byte sequences `E0 A0..BF | E1..EC 80..BF |
ED 80..9F | EE..EF 80..BF`, four-byte sequences `F0 90..BF | F1..F3 80..BF |
F4 80..8F`, each followed by continuation bytes `80..BF`.  When
`surrogatepass` is `true` the `ED` second-byte range widens to `80..BF`,
which is exactly CPython's surrogatepass error handler: it accepts the
three-byte encodings of lone surrogates `U+D800..U+DFFF` and nothing else.
The result is the list of decoded code points, or the decode error message. -/
def utf8_decode (surrogatepass : Bool) : List Nat → Except String (List Nat)
  | [] => .ok []
  | b :: bs =>
    if b < 0x80 then
      (utf8_decode surrogatepass bs).map (fun cs => b :: cs)
    else if b < 0xC2 then
      .error "invalid start byte"
    else if b < 0xE0 then
      match bs with
      | [] => .error "unexpected end of data"
      | b1 :: bs1 =>
        if 0x80 ≤ b1 ∧ b1 < 0xC0 then
          (utf8_decode surrogatepass bs1).map
            (fun cs => ((b - 0xC0) * 64 + (b1 - 0x80)) :: cs)
        else .error "invalid continuation byte"
    else if b < 0xF0 then
      match bs with
      | [] => .error "unexpected end of data"
      | b1 :: bs1 =>
        match bs1 with
        | [] => .error "unexpected end of data"
        | b2 :: bs2 =>
          if (if b = 0xE0 then 0xA0 else 0x80) ≤ b1 ∧
              b1 < (if b = 0xED ∧ surrogatepass = false then 0xA0 else 0xC0) then
            if 0x80 ≤ b2 ∧ b2 < 0xC0 then
              (utf8_decode surrogatepass bs2).map
                (fun cs =>
                  ((b - 0xE0) * 4096 + (b1 - 0x80) * 64 + (b2 - 0x80)) :: cs)
            else .error "invalid continuation byte"
          else .error "invalid continuation byte"
    else if b < 0xF5 then
      match bs with
      | [] => .error "unexpected end of data"
      | b1 :: bs1 =>
        match bs1 with
        | [] => .error "unexpected end of data"
        | b2 :: bs2 =>
          match bs2 with
          | [] => .error "unexpected end of data"
          | b3 :: bs3 =>
            if (if b = 0xF0 then 0x90 else 0x80) ≤ b1 ∧
                b1 < (if b = 0xF4 then 0x90 else 0xC0) ∧
                0x80 ≤ b2 ∧ b2 < 0xC0 ∧ 0x80 ≤ b3 ∧ b3 < 0xC0 then
              (utf8_decode surrogatepass bs3).map
                (fun cs =>
                  ((b - 0xF0) * 262144 + (b1 - 0x80) * 4096 + (b2 - 0x80) * 64
                    + (b3 - 0x80)) :: cs)
            else .error "invalid continuation byte"
    else .error "invalid start byte"

/-- Errors that abort interpretation of a stream. -/
inductive PErr where
  | eof : PErr
  | unicodeDecodeError : String → PErr
  | exception : String → PErr
  deriving DecidableEq

/-- Embedding of `self.read(n)`: take exactly `n` bytes from the remaining
input, failing if fewer are available. -/
def readN (n : Nat) (input : List Nat) : Except PErr (List Nat × List Nat) :=
  if n ≤ input.length then .ok (input.take n, input.drop n) else .error .eof

/-- Embedding of `self.readline()[:-1]`: the bytes before the next newline,
and the remaining input after the newline. -/
def readLine : List Nat → Except PErr (List Nat × List Nat)
  | [] => .error .eof
  | b :: bs =>
    if b = 0x0A then .ok ([], bs)
    else (readLine bs).map (fun p => (b :: p.1, p.2))

/-- Embedding of `struct.unpack("<I", ...)`: a 4-byte unsigned little-endian
integer. -/
def decodeLE4 : List Nat → Nat
  | [b0, b1, b2, b3] => b0 + 256 * (b1 + 256 * (b2 + 256 * b3))
  | _ => 0

/-- The 4-byte little-endian encoding of a length, for building test inputs. -/
def le4 (n : Nat) : List Nat :=
  [n % 256, n / 256 % 256, n / 65536 % 256, n / 16777216 % 256]

/-- Embedding of `DumpUnpickler.load_binunicode`: read a 4-byte little-endian
length, fail with "String too long." if it exceeds `maxsize` (the model of
`sys.maxsize`), read that many bytes, decode them as UTF-8 with surrogatepass;
on decode failure either re-raise (flag off) or push a
`FakeObject("builtin", "UnicodeDecodeError", (msg,))` sentinel (flag on).
Returns the new stack and the remaining input. -/
def load_binunicode (catch_invalid_utf8 : Bool) (maxsize : Nat)
    (stack : List PValue) (input : List Nat) :
    Except PErr (List PValue × List Nat) :=
  match readN 4 input with
  | .error e => .error e
  | .ok (lenBytes, rest) =>
    if maxsize < decodeLE4 lenBytes then .error (.exception "String too long.")
    else
      match readN (decodeLE4 lenBytes) rest with
      | .error e => .error e
      | .ok (str_bytes, rest2) =>
        match utf8_decode true str_bytes with
        | .ok codes => .ok (.pstr codes :: stack, rest2)
        | .error msg =>
          if catch_invalid_utf8 then
            .ok ((FakeObject.mk "builtin" "UnicodeDecodeError"
                    [.pstr (strCodes msg)] .pnone).toPValue :: stack, rest2)
          else .error (.unicodeDecodeError msg)

/-- Step interpreter for the opcode subset exercised by this development,
each opcode per `pickle._Unpickler`'s dispatch with the `DumpUnpickler`
overrides: `STOP (0x2E)` returns the top of stack; `GLOBAL (0x63)` reads two
newline-terminated UTF-8 names and pushes `find_class`'s placeholder;
`EMPTY_TUPLE (0x29)`, `NONE (0x4E)` and `BININT1 (0x4B)` push scalars;
`REDUCE (0x52)` pops the argument tuple and the class and pushes
`FakeClass.__call__`'s placeholder instance; `BUILD (0x62)` pops the state
and applies `FakeObject.__setstate__` to the object below it;
`BINUNICODE (0x58)` runs the overridden `load_binunicode`.  `fuel` bounds
the number of steps; each opcode consumes at least one input byte, so any
fuel exceeding the input length is enough. -/
def run (catch_invalid_utf8 : Bool) (maxsize : Nat) :
    Nat → List PValue → List Nat → Except PErr PValue
  | 0, _, _ => .error (.exception "out of fuel")
  | _ + 1, _, [] => .error .eof
  | fuel + 1, stack, op :: rest =>
    if op = 0x2E then
      match stack with
      | v :: _ => .ok v
      | [] => .error (.exception "stack underflow")
    else if op = 0x63 then
      match readLine rest with
      | .error e => .error e
      | .ok (mline, rest1) =>
        match readLine rest1 with
        | .error e => .error e
        | .ok (nline, rest2) =>
          match utf8_decode false mline, utf8_decode false nline with
          | .ok mcodes, .ok ncodes =>
            let c := DumpUnpickler.find_class (stringOfCodes mcodes)
              (stringOfCodes ncodes)
            run catch_invalid_utf8 maxsize fuel
              (.fakeClass c.module c.name :: stack) rest2
          | _, _ => .error (.unicodeDecodeError "global name")
    else if op = 0x29 then
      run catch_invalid_utf8 maxsize fuel (.ptuple [] :: stack) rest
    else if op = 0x4E then
      run catch_invalid_utf8 maxsize fuel (.pnone :: stack) rest
    else if op = 0x4B then
      match rest with
      | [] => .error .eof
      | b :: rest1 =>
        run catch_invalid_utf8 maxsize fuel (.pint b :: stack) rest1
    else if op = 0x52 then
      match stack with
      | .ptuple args :: .fakeClass m n :: stk =>
        run catch_invalid_utf8 maxsize fuel
          (((DumpUnpickler.find_class m n).call args).toPValue :: stk) rest
      | _ => .error (.exception "REDUCE expects a class under a tuple")
    else if op = 0x62 then
      match stack with
      | st :: .fakeObject m n args old :: stk =>
        run catch_invalid_utf8 maxsize fuel
          (((FakeObject.mk m n args old).setstate st).toPValue :: stk) rest
      | _ => .error (.exception "BUILD expects an object under the state")
    else if op = 0x58 then
      match load_binunicode catch_invalid_utf8 maxsize stack rest with
      | .error e => .error e
      | .ok (stack2, rest2) =>
        run catch_invalid_utf8 maxsize fuel stack2 rest2
    else .error (.exception "unsupported opcode")

/-- Embedding of `DumpUnpickler.dump`'s interpretation phase: run the
unpickler with the default flag (`catch_invalid_utf8 = False`) on a whole
stream, with enough fuel for every byte. -/
def dumpModel (maxsize : Nat) (bytes : List Nat) : Except PErr PValue :=
  run false maxsize (bytes.length + 1) [] bytes

/-- A run of spaces, for the indentation written by `pp_format`. -/
def spaces (n : Nat) : String :=
  String.mk (List.replicate n ' ')

/-- Embedding of `FakeObject.__repr__`:
`f"{module}.{name}{args!r}{state_str}"`, where `state_str` is empty when
`state` is `None`.  `reprValue` stands for Python's built-in `repr` on
nested values (a black-box formatter boundary). -/
def FakeObject.fakeRepr (reprValue : PValue → String) (o : FakeObject) :
    String :=
  let state_str :=
    if o.state.isNone then "" else "(state=" ++ reprValue o.state ++ ")"
  o.module ++ "." ++ o.name ++ reprValue (.ptuple o.args) ++ state_str

/-- Embedding of `FakeObject.pp_format`.  `reprValue` models built-in `repr`
and `format` models `printer._format` (value, indent, allowance, level), both
black-box formatter boundaries; `indent_per_level` models
`printer._indent_per_level`.  The result is the text written to the stream,
or the `"Need to implement"` error raised for the args-and-state case. -/
def FakeObject.pp_format (reprValue : PValue → String)
    (format : PValue → Nat → Nat → Nat → String) (indent_per_level : Nat)
    (o : FakeObject) (indent allowance level : Nat) :
    Except String String :=
  if o.args.isEmpty && o.state.isNone then
    .ok (o.fakeRepr reprValue)
  else if o.state.isNone then
    .ok (o.module ++ "." ++ o.name
      ++ format (.ptuple o.args) (indent + 1) (allowance + 1) level)
  else if o.args.isEmpty then
    let indent2 := indent + indent_per_level
    .ok (o.module ++ "." ++ o.name ++ "()(state=\n" ++ spaces indent2
      ++ format o.state indent2 (allowance + 1) (level + 1) ++ ")")
  else
    .error "Need to implement"

/-- Scan for the closing `]` of a glob character class, returning the class
body and the remaining pattern. -/
def findClose : List Char → Option (List Char × List Char)
  | [] => none
  | c :: cs =>
    if c = ']' then some ([], cs)
    else (findClose cs).map (fun p => (c :: p.1, p.2))

/-- Parse the pattern after a `[`, per `fnmatch.translate`: an optional
leading `!` negates; a `]` immediately after `[` or `[!` is a literal member;
if no closing `]` exists, the `[` is a literal character (`none`). -/
def parseClass (cs : List Char) : Option (Bool × List Char × List Char) :=
  let p := match cs with
    | '!' :: rest => (true, rest)
    | _ => (false, cs)
  match p.2 with
  | ']' :: rest2 =>
    (findClose rest2).map (fun q => (p.1, ']' :: q.1, q.2))
  | _ =>
    (findClose p.2).map (fun q => (p.1, q.1, q.2))

/-- Membership of a character in a glob class body, with `a-b` ranges as in
the regular-expression class `fnmatch.translate` emits. -/
def inClass : List Char → Char → Bool
  | a :: '-' :: b :: rest, c =>
    (a ≤ c && c ≤ b) || inClass rest c
  | a :: rest, c => a = c || inClass rest c
  | [], _ => false

/-- Glob matching as compiled by `fnmatch.translate`: `*` matches any
(possibly empty) sequence, `?` any single character, `[...]`/`[!...]`
character classes, anything else literally; the whole name must match.
`fuel` bounds the recursion; every recursive call strictly decreases
`pattern.length + s.length`, so any fuel exceeding that sum is enough. -/
def globMatchF : Nat → List Char → List Char → Bool
  | 0, _, _ => false
  | _ + 1, [], s => s.isEmpty
  | fuel + 1, '*' :: ps, s =>
    match s with
    | [] => globMatchF fuel ps []
    | _ :: cs => globMatchF fuel ps s || globMatchF fuel ('*' :: ps) cs
  | fuel + 1, '?' :: ps, s =>
    match s with
    | [] => false
    | _ :: cs => globMatchF fuel ps cs
  | fuel + 1, '[' :: ps, s =>
    match parseClass ps with
    | some q =>
      match s with
      | [] => false
      | c :: cs => (inClass q.2.1 c != q.1) && globMatchF fuel q.2.2 cs
    | none =>
      match s with
      | [] => false
      | c :: cs => c = '[' && globMatchF fuel ps cs
  | fuel + 1, p :: ps, s =>
    match s with
    | [] => false
    | c :: cs => p = c && globMatchF fuel ps cs

/-- Embedding of `fnmatch.fnmatch(name, pat)` (POSIX `normcase` is the
identity): match the whole member name against the glob pattern. -/
def fnmatch (name pat : String) : Bool :=
  globMatchF (pat.length + name.length + 1) pat.data name.data

/-- Embedding of the member loop in `main`'s glob branch: walk the archive
members in stored order and return the first whose name matches the pattern,
stopping at it (the loop `break`s), or `none` if no member matches. -/
def firstGlobMember (mname : String) :
    List (String × List Nat) → Option (String × List Nat)
  | [] => none
  | m :: ms => if fnmatch m.1 mname then some m else firstGlobMember mname ms

/-- Embedding of `fname.split("@", 1)`: the text before the first separator
and everything after it (which may itself contain the separator). -/
def splitOnce (sep : Char) : List Char → List Char × List Char
  | [] => ([], [])
  | c :: cs =>
    if c = sep then ([], cs)
    else
      let p := splitOnce sep cs
      (c :: p.1, p.2)

/-- The external world `main` touches: plain files by path, and zip archives
as ordered lists of `(member name, member bytes)`. -/
structure Env where
  files : String → Option (List Nat)
  archives : String → Option (List (String × List Nat))

/-- The usage text `main` writes to stderr on an argument-count violation,
one entry per `sys.stderr.write` call. -/
def usageLines : List String :=
  [ "usage: show_pickle PICKLE_FILE\n"
  , "  PICKLE_FILE can be any of:\n"
  , "    path to a pickle file\n"
  , "    file.zip@member.pkl\n"
  , "    file.zip@*/pattern.*\n"
  , "      (shell glob pattern for members)\n"
  , "      (only first match will be shown)\n" ]

/-- Embedding of `main`'s zip branch: open the archive, then either open the
exact member name (no `*` in the member spec) or scan for the first
glob match, failing with the "Could not find member" error if none matches. -/
def zipBranch (env : Env) (maxsize : Nat) (zfname mname : String) :
    Except PErr PValue :=
  match env.archives zfname with
  | none => .error (.exception "Bad zip file")
  | some members =>
    if '*' ∈ mname.data then
      match firstGlobMember mname members with
      | some m => dumpModel maxsize m.2
      | none =>
        .error (.exception
          ("Could not find member matching " ++ mname ++ " in " ++ zfname))
    else
      match members.find? (fun m => m.1 == mname) with
      | none => .error (.exception "There is no item named in the archive")
      | some m => dumpModel maxsize m.2

/-- Embedding of the locator resolution in `main`: a plain path when the
locator has no `@`, otherwise `split("@", 1)` into archive and member. -/
def resolveAndDump (env : Env) (maxsize : Nat) (fname : String) :
    Except PErr PValue :=
  if '@' ∈ fname.data then
    let p := splitOnce '@' fname.data
    zipBranch env maxsize (String.mk p.1) (String.mk p.2)
  else
    match env.files fname with
    | none => .error (.exception "No such file")
    | some bytes => dumpModel maxsize bytes

/-- Observable outcome of `main`: a return code together with the lines
written to stderr and the value dumped to the output stream, or a raised
error. -/
inductive MainOutcome where
  | ret : Nat → List String → Option PValue → MainOutcome
  | err : PErr → MainOutcome

/-- Embedding of `main(argv, output_stream)`: with any argument count other
than two, raise when an output stream was supplied, else write the usage text
to stderr and return 2; with exactly two arguments, resolve and dump the
locator, returning 0 on success. -/
def mainModel (env : Env) (maxsize : Nat) (argv : List String)
    (output_stream : Option Unit) : MainOutcome :=
  match argv with
  | [_, fname] =>
    match resolveAndDump env maxsize fname with
    | .ok v => .ret 0 [] (some v)
    | .error e => .err e
  | _ =>
    if output_stream.isSome then .err (.exception "Pass argv of length 2.")
    else .ret 2 usageLines none

/-- Reading exactly the length of a prefix returns that prefix and the rest. -/
theorem readN_exact (l r : List Nat) : readN l.length (l ++ r) = .ok (l, r) := by
  unfold readN
  rw [if_pos (by simp), List.take_left, List.drop_left]

/-- The little-endian round trip: decoding the 4-byte encoding of any length
below `2^32` gives the length back. -/
theorem decodeLE4_le4 {n : Nat} (h : n < 4294967296) :
    decodeLE4 (le4 n) = n := by
  simp only [le4, decodeLE4]
  omega

/-- Any 4-byte little-endian value is at most `2^32 - 1`. -/
theorem decodeLE4_le (l : List Nat) (h : ∀ b ∈ l, b < 256) :
    decodeLE4 l ≤ 4294967295 := by
  rcases l with _ | ⟨b0, _ | ⟨b1, _ | ⟨b2, _ | ⟨b3, _ | _⟩⟩⟩⟩ <;>
    simp only [decodeLE4] <;> try omega
  have h0 := h b0 (by simp)
  have h1 := h b1 (by simp)
  have h2 := h b2 (by simp)
  have h3 := h b3 (by simp)
  omega

/-- Reading a line whose bytes contain no newline consumes exactly that line
and its terminating newline. -/
theorem readLine_exact {l : List Nat} (r : List Nat) (h : 0x0A ∉ l) :
    readLine (l ++ 0x0A :: r) = .ok (l, r) := by
  induction l with
  | nil => simp [readLine]
  | cons b bs ih =>
    have hb : b ≠ 0x0A := fun hb => h (hb ▸ List.mem_cons_self b bs)
    have hbs : 0x0A ∉ bs := fun hm => h (List.mem_cons_of_mem b hm)
    simp [readLine, Except.map, hb, ih hbs]

/-- A value other than `pnone` fails the `is None` test. -/
theorem PValue.isNone_eq_false {v : PValue} (h : v ≠ .pnone) :
    v.isNone = false := by
  cases v <;> first | exact absurd rfl h | rfl

/-- A nonempty argument list fails the emptiness test. -/
theorem isEmpty_eq_false {α : Type} {l : List α} (h : l ≠ []) :
    l.isEmpty = false := by
  cases l with
  | nil => exact absurd rfl h
  | cons a as => rfl

/-- Behaviour of `load_binunicode` on a well-formed payload: read the
4-byte length, read the payload, and dispatch on the decode result and the
leniency flag. -/
theorem load_binunicode_append (flag : Bool) (maxsize : Nat)
    (stack : List PValue) (payload rest : List Nat)
    (hlen : payload.length < 4294967296) (hmax : payload.length ≤ maxsize) :
    load_binunicode flag maxsize stack (le4 payload.length ++ (payload ++ rest))
      = match utf8_decode true payload with
        | .ok codes => .ok (.pstr codes :: stack, rest)
        | .error msg =>
          if flag then
            .ok (.fakeObject "builtin" "UnicodeDecodeError"
                  [.pstr (strCodes msg)] .pnone :: stack, rest)
          else .error (.unicodeDecodeError msg) := by
  have h4 : readN 4 (le4 payload.length ++ (payload ++ rest))
      = .ok (le4 payload.length, payload ++ rest) := by
    have h := readN_exact (le4 payload.length) (payload ++ rest)
    rwa [show (le4 payload.length).length = 4 from rfl] at h
  unfold load_binunicode
  rw [h4]
  simp only [decodeLE4_le4 hlen]
  rw [if_neg (by omega), readN_exact payload rest]
  cases hdec : utf8_decode true payload <;>
    simp [hdec, FakeObject.toPValue]

/-- C2: for every pair of strings, `find_class` returns a placeholder class
carrying exactly that module and name, with no lookup and no failure mode;
and a stream holding a class-resolution opcode followed immediately by STOP
interprets to that placeholder, which is never a constructed instance. -/
theorem C2_find_class_placeholder (module name : String)
    (mbytes nbytes mcodes ncodes : List Nat) (flag : Bool) (maxsize fuel : Nat)
    (hm : utf8_decode false mbytes = .ok mcodes)
    (hn : utf8_decode false nbytes = .ok ncodes)
    (hmnl : 0x0A ∉ mbytes) (hnnl : 0x0A ∉ nbytes) :
    DumpUnpickler.find_class module name = { module := module, name := name }
    ∧ run flag maxsize (fuel + 1 + 1) []
        (0x63 :: (mbytes ++ 0x0A :: (nbytes ++ 0x0A :: [0x2E])))
        = .ok (.fakeClass (stringOfCodes mcodes) (stringOfCodes ncodes))
    ∧ ∀ m2 n2 args st,
        PValue.fakeClass (stringOfCodes mcodes) (stringOfCodes ncodes)
          ≠ .fakeObject m2 n2 args st := by
  refine ⟨rfl, ?_, fun m2 n2 args st h => by cases h⟩
  have h1 : readLine (mbytes ++ 0x0A :: (nbytes ++ 0x0A :: [0x2E]))
      = .ok (mbytes, nbytes ++ 0x0A :: [0x2E]) := readLine_exact _ hmnl
  have h2 : readLine (nbytes ++ 0x0A :: [0x2E]) = .ok (nbytes, [0x2E]) :=
    readLine_exact _ hnnl
  simp [run, h1, h2, hm, hn, DumpUnpickler.find_class]

/-- Witness for C2 at a concrete stream: `GLOBAL "m" "C"` then `STOP`. -/
theorem C2_witness :
    run false 9 2 []
        (0x63 :: ([0x6D] ++ 0x0A :: ([0x43] ++ 0x0A :: [0x2E])))
      = .ok (.fakeClass (stringOfCodes [0x6D]) (stringOfCodes [0x43])) :=
  (C2_find_class_placeholder "m" "C" [0x6D] [0x43] [0x6D] [0x43] false 9 0
    rfl rfl (by decide) (by decide)).2.1

/-- C4: the fast-construction application `fake_new` builds a placeholder
instance whose argument list is `args` with its first element dropped, while
the ordinary application `__call__` stores `args` verbatim; neither sets any
state. -/
theorem C4_fake_new_drops_first (c : FakeClass) (args : List PValue) :
    c.fake_new args
        = { module := c.module, name := c.name, args := args.drop 1,
            state := .pnone }
    ∧ c.call args
        = { module := c.module, name := c.name, args := args,
            state := .pnone } :=
  ⟨rfl, rfl⟩

/-- C5: rendering a placeholder instance that has both a nonempty argument
list and a non-null state fails with the "Need to implement" internal error,
for every formatter; no output is produced for this combination. -/
theorem C5_pp_format_args_and_state (reprValue : PValue → String)
    (format : PValue → Nat → Nat → Nat → String) (indent_per_level : Nat)
    (o : FakeObject) (indent allowance level : Nat)
    (hargs : o.args ≠ []) (hstate : o.state ≠ .pnone) :
    o.pp_format reprValue format indent_per_level indent allowance level
      = .error "Need to implement" := by
  unfold FakeObject.pp_format
  rw [isEmpty_eq_false hargs, PValue.isNone_eq_false hstate]
  simp

/-- Witness for C5 at a concrete instance with one argument and an integer
state. -/
theorem C5_witness :
    FakeObject.pp_format (fun _ => "") (fun _ _ _ _ => "") 1
        { module := "m", name := "C", args := [.pint 1], state := .pint 2 }
        0 0 0
      = .error "Need to implement" :=
  C5_pp_format_args_and_state (fun _ => "") (fun _ _ _ _ => "") 1
    { module := "m", name := "C", args := [.pint 1], state := .pint 2 }
    0 0 0 (by simp) (fun h => by cases h)

/-- The only read failure is end of input. -/
theorem readN_eq_error {n : Nat} {l : List Nat} {e : PErr}
    (h : readN n l = .error e) : e = .eof := by
  unfold readN at h
  split at h
  · cases h
  · injection h with h1
    exact h1.symm

/-- A successful read returns the first `n` bytes and the rest. -/
theorem readN_eq_ok {n : Nat} {l a b : List Nat}
    (h : readN n l = .ok (a, b)) : a = l.take n ∧ b = l.drop n := by
  unfold readN at h
  split at h
  · injection h with h1
    exact ⟨(congrArg Prod.fst h1).symm, (congrArg Prod.snd h1).symm⟩
  · cases h

/-- One interpreter step on the `BINUNICODE` opcode runs the overridden
`load_binunicode` and continues on its result. -/
theorem run_binunicode_step (flag : Bool) (maxsize fuel : Nat)
    (stack : List PValue) (input : List Nat) :
    run flag maxsize (fuel + 1) stack (0x58 :: input)
      = match load_binunicode flag maxsize stack input with
        | .error e => .error e
        | .ok (stack2, rest2) => run flag maxsize fuel stack2 rest2 := by
  simp only [run]
  norm_num

/-- C1: when the payload of a string opcode fails surrogate-pass UTF-8
decoding, the interpreter's behaviour is decided exactly by the
`catch_invalid_utf8` flag: with the flag set, the sentinel
`FakeObject("builtin", "UnicodeDecodeError", (msg,))` is pushed onto the
operand stack and interpretation continues on the remaining input; with the
flag clear, the decode failure propagates as a fatal error aborting
interpretation of the stream. -/
theorem C1_catch_invalid_utf8 (flag : Bool) (maxsize fuel : Nat)
    (stack : List PValue) (payload rest : List Nat) (msg : String)
    (hdec : utf8_decode true payload = .error msg)
    (hlen : payload.length < 4294967296) (hmax : payload.length ≤ maxsize) :
    run flag maxsize (fuel + 1) stack
        (0x58 :: (le4 payload.length ++ (payload ++ rest)))
      = if flag then
          run flag maxsize fuel
            (.fakeObject "builtin" "UnicodeDecodeError"
              [.pstr (strCodes msg)] .pnone :: stack) rest
        else .error (.unicodeDecodeError msg) := by
  have hl := load_binunicode_append flag maxsize stack payload rest hlen hmax
  rw [hdec] at hl
  rw [run_binunicode_step, hl]
  cases flag <;> simp

/-- Witness for C1 at the one-byte payload `0xFF` (an invalid start byte),
exercising both flag values. -/
theorem C1_witness :
    (run true 9 (1 + 1) [] (0x58 :: (le4 1 ++ ([0xFF] ++ [0x2E])))
        = run true 9 1
            (.fakeObject "builtin" "UnicodeDecodeError"
              [.pstr (strCodes "invalid start byte")] .pnone :: []) [0x2E])
    ∧ run false 9 (1 + 1) [] (0x58 :: (le4 1 ++ ([0xFF] ++ [0x2E])))
        = .error (.unicodeDecodeError "invalid start byte") := by
  constructor
  · have h := C1_catch_invalid_utf8 true 9 1 [] [0xFF] [0x2E]
      "invalid start byte" rfl (by norm_num) (by norm_num)
    simpa using h
  · have h := C1_catch_invalid_utf8 false 9 1 [] [0xFF] [0x2E]
      "invalid start byte" rfl (by norm_num) (by norm_num)
    simpa using h

/-- The three-byte UTF-8 encoding of a surrogate code point. -/
def surrogateUtf8 (s : Nat) : List Nat :=
  [0xED, 0xA0 + (s - 0xD800) / 64, 0x80 + (s - 0xD800) % 64]

/-- C3: the payload of a string opcode holding the three-byte encoding of a
lone surrogate decodes successfully under surrogate-pass, preserving the
surrogate code point bit-for-bit, and `load_binunicode` pushes that string
for either value of the `catch_invalid_utf8` flag: lone-surrogate acceptance
is independent of the leniency mechanism. -/
theorem C3_lone_surrogate (s maxsize : Nat)
    (h1 : 0xD800 ≤ s) (h2 : s ≤ 0xDFFF) (h3 : 3 ≤ maxsize) :
    utf8_decode true (surrogateUtf8 s) = .ok [s]
    ∧ ∀ (flag : Bool) (stack : List PValue) (rest : List Nat),
        load_binunicode flag maxsize stack
            (le4 3 ++ (surrogateUtf8 s ++ rest))
          = .ok (.pstr [s] :: stack, rest) := by
  have hdec : utf8_decode true (surrogateUtf8 s) = .ok [s] := by
    obtain ⟨b1, hg1⟩ : ∃ b1, 0xA0 + (s - 0xD800) / 64 = b1 := ⟨_, rfl⟩
    obtain ⟨b2, hg2⟩ : ∃ b2, 0x80 + (s - 0xD800) % 64 = b2 := ⟨_, rfl⟩
    unfold surrogateUtf8
    rw [hg1, hg2]
    simp only [utf8_decode]
    norm_num
    rw [if_pos (by omega), if_pos (by omega)]
    simp only [utf8_decode, Except.map, Except.ok.injEq, List.cons.injEq,
      and_true]
    omega
  refine ⟨hdec, fun flag stack rest => ?_⟩
  have hl := load_binunicode_append flag maxsize stack (surrogateUtf8 s) rest
    (by simp [surrogateUtf8]) (by simpa [surrogateUtf8] using h3)
  rw [hdec] at hl
  rwa [show (surrogateUtf8 s).length = 3 from rfl] at hl

/-- Witness for C3 at the lowest surrogate `U+D800` with the flag clear. -/
theorem C3_witness :
    utf8_decode true (surrogateUtf8 0xD800) = .ok [0xD800]
    ∧ load_binunicode false 9 []
        (le4 3 ++ (surrogateUtf8 0xD800 ++ [0x2E]))
        = .ok (.pstr [0xD800] :: [], [0x2E]) :=
  ⟨(C3_lone_surrogate 0xD800 9 (by norm_num) (by norm_num) (by norm_num)).1,
   (C3_lone_surrogate 0xD800 9 (by norm_num) (by norm_num) (by norm_num)).2
     false [] [0x2E]⟩

/-- C9: the string-opcode length is decoded from exactly four bytes as an
unsigned little-endian integer, so it is at most `2^32 - 1`; on a platform
whose `sys.maxsize` is at least `2^32 - 1`, the "String too long." branch of
`load_binunicode` is unreachable, whatever the input bytes. -/
theorem C9_too_long_unreachable (flag : Bool) (maxsize : Nat)
    (stack : List PValue) (input : List Nat)
    (hbytes : ∀ b ∈ input, b < 256) (hmax : 4294967295 ≤ maxsize) :
    load_binunicode flag maxsize stack input
      ≠ .error (.exception "String too long.") := by
  intro hcontra
  unfold load_binunicode at hcontra
  split at hcontra
  · rename_i e heq
    rw [readN_eq_error heq] at hcontra
    simp at hcontra
  · rename_i lenBytes rest heq
    obtain ⟨hlb, -⟩ := readN_eq_ok heq
    have hle : decodeLE4 lenBytes ≤ 4294967295 := by
      rw [hlb]
      exact decodeLE4_le _ (fun b hb => hbytes b (List.take_subset 4 input hb))
    split at hcontra
    · rename_i hlt
      omega
    · split at hcontra
      · rename_i e2 heq2
        rw [readN_eq_error heq2] at hcontra
        simp at hcontra
      · split at hcontra
        · simp at hcontra
        · split at hcontra <;> simp at hcontra

/-- Witness for C9: four `0xFF` length bytes (the maximal length) on a
64-bit `sys.maxsize`. -/
theorem C9_witness :
    load_binunicode false 9223372036854775807 []
        [0xFF, 0xFF, 0xFF, 0xFF]
      ≠ .error (.exception "String too long.") :=
  C9_too_long_unreachable false 9223372036854775807 []
    [0xFF, 0xFF, 0xFF, 0xFF] (by decide) (by norm_num)

/-- Counterexample to C6: the stream `GLOBAL "m" "C"; EMPTY_TUPLE; REDUCE;
BININT1 1; BUILD; BININT1 2; BUILD; STOP` applies the state-setting opcode
twice to the same placeholder instance, and the second application mutates
`state` again (from 1 to 2), so `state` is not immutable after its first
mutation; dropping the second `BUILD` shows the first mutation had set it
to 1. -/
theorem C6_counterexample :
    dumpModel 100 [0x63, 0x6D, 0x0A, 0x43, 0x0A, 0x29, 0x52, 0x4B, 0x01,
        0x62, 0x4B, 0x02, 0x62, 0x2E]
      = .ok (.fakeObject "m" "C" [] (.pint 2))
    ∧ dumpModel 100 [0x63, 0x6D, 0x0A, 0x43, 0x0A, 0x29, 0x52, 0x4B, 0x01,
        0x62, 0x2E]
      = .ok (.fakeObject "m" "C" [] (.pint 1))
    ∧ PValue.fakeObject "m" "C" [] (.pint 2)
        ≠ .fakeObject "m" "C" [] (.pint 1) :=
  ⟨rfl, rfl, by simp⟩

/-- C6 as amended: each state-setting opcode unconditionally overwrites the
instance's `state` with the popped value, whatever was there before — the
code has no guard against a second mutation, so last write wins; `state` is
mutated exactly once only on streams that apply exactly one state-setting
opcode to the instance. -/
theorem C6_amended_setstate_overwrites (flag : Bool) (maxsize fuel : Nat)
    (m n : String) (args : List PValue) (old st : PValue)
    (stk : List PValue) (rest : List Nat) :
    run flag maxsize (fuel + 1) (st :: .fakeObject m n args old :: stk)
        (0x62 :: rest)
      = run flag maxsize fuel (.fakeObject m n args st :: stk) rest := by
  simp only [run]
  norm_num [FakeObject.setstate, FakeObject.toPValue]

/-- C7: with an argument count other than two, `main` in terminal mode
(no output sink) writes the usage text — which lists the three locator forms
and the first-match note — to stderr and returns exit status 2, while in
programmatic mode (explicit output sink) it raises and prints no usage
text. -/
theorem C7_usage_behaviour (env : Env) (maxsize : Nat) (argv : List String)
    (h : argv.length ≠ 2) :
    mainModel env maxsize argv none = .ret 2 usageLines none
    ∧ (∀ u : Unit, mainModel env maxsize argv (some u)
        = .err (.exception "Pass argv of length 2."))
    ∧ "    path to a pickle file\n" ∈ usageLines
    ∧ "    file.zip@member.pkl\n" ∈ usageLines
    ∧ "    file.zip@*/pattern.*\n" ∈ usageLines
    ∧ "      (only first match will be shown)\n" ∈ usageLines := by
  have key : ∀ os : Option Unit,
      mainModel env maxsize argv os
        = if os.isSome then .err (.exception "Pass argv of length 2.")
          else .ret 2 usageLines none := by
    intro os
    match argv, h with
    | [], _ => rfl
    | [a], _ => rfl
    | a :: b :: c :: t, _ => rfl
    | [a, b], h => exact absurd rfl h
  refine ⟨by simpa using key none, fun u => by simpa using key (some u),
    ?_, ?_, ?_, ?_⟩ <;> simp [usageLines]

/-- Witness for C7 with an empty argument vector in both modes. -/
theorem C7_witness :
    mainModel (Env.mk (fun _ => none) (fun _ => none)) 9 [] none
        = .ret 2 usageLines none
    ∧ mainModel (Env.mk (fun _ => none) (fun _ => none)) 9 [] (some ())
        = .err (.exception "Pass argv of length 2.") :=
  ⟨(C7_usage_behaviour (Env.mk (fun _ => none) (fun _ => none)) 9 []
      (by decide)).1,
   (C7_usage_behaviour (Env.mk (fun _ => none) (fun _ => none)) 9 []
      (by decide)).2.1 ()⟩

/-- The member loop returns the first matching member, ignoring everything
after it. -/
theorem firstGlobMember_of_prefix (mname : String)
    (pre post : List (String × List Nat)) (m : String × List Nat)
    (hpre : ∀ x ∈ pre, fnmatch x.1 mname = false)
    (hm : fnmatch m.1 mname = true) :
    firstGlobMember mname (pre ++ m :: post) = some m := by
  induction pre with
  | nil => simp [firstGlobMember, hm]
  | cons a as ih =>
    have ha := hpre a (List.mem_cons_self a as)
    simp only [List.cons_append, firstGlobMember, ha]
    simp only [Bool.false_eq_true, if_false]
    exact ih (fun x hx => hpre x (List.mem_cons_of_mem a hx))

/-- The member loop finds nothing when no member matches. -/
theorem firstGlobMember_none (mname : String)
    (members : List (String × List Nat))
    (h : ∀ x ∈ members, fnmatch x.1 mname = false) :
    firstGlobMember mname members = none := by
  induction members with
  | nil => rfl
  | cons a as ih =>
    have ha := h a (List.mem_cons_self a as)
    simp only [firstGlobMember, ha]
    simp only [Bool.false_eq_true, if_false]
    exact ih (fun x hx => h x (List.mem_cons_of_mem a hx))

/-- C8: for an `archive@glob-pattern` locator, the resolver walks the archive
members in stored order and dumps exactly the first member whose name matches
the pattern — the members after it never influence the result — and when no
member matches it fails with the "Could not find member matching" error and
produces no output. -/
theorem C8_first_glob_match (env : Env) (maxsize : Nat) (zfname mname : String)
    (pre post : List (String × List Nat)) (m : String × List Nat)
    (hstar : '*' ∈ mname.data)
    (harch : env.archives zfname = some (pre ++ m :: post))
    (hpre : ∀ x ∈ pre, fnmatch x.1 mname = false)
    (hm : fnmatch m.1 mname = true) :
    zipBranch env maxsize zfname mname = dumpModel maxsize m.2
    ∧ ∀ (env2 : Env) (members : List (String × List Nat)),
        env2.archives zfname = some members →
        (∀ x ∈ members, fnmatch x.1 mname = false) →
        zipBranch env2 maxsize zfname mname
          = .error (.exception
              ("Could not find member matching " ++ mname ++ " in "
                ++ zfname)) := by
  constructor
  · simp [zipBranch, harch, hstar,
      firstGlobMember_of_prefix mname pre post m hpre hm]
  · intro env2 members harch2 hnone
    simp [zipBranch, harch2, hstar, firstGlobMember_none mname members hnone]

/-- Witness for C8: the pattern matches the second and third members of a
three-member archive; the second (first match, holding the stream `NONE;
STOP`) is dumped. -/
theorem C8_witness :
    zipBranch
        (Env.mk (fun _ => none)
          (fun _ => some [("x.txt", []), ("a.pkl", [0x4E, 0x2E]),
            ("b.pkl", [])]))
        9 "a.zip" "*.pkl"
      = dumpModel 9 [0x4E, 0x2E] :=
  (C8_first_glob_match
    (Env.mk (fun _ => none)
      (fun _ => some [("x.txt", []), ("a.pkl", [0x4E, 0x2E]), ("b.pkl", [])]))
    9 "a.zip" "*.pkl" [("x.txt", [])] [("b.pkl", [])]
    ("a.pkl", [0x4E, 0x2E]) (by decide) rfl (by decide) (by decide)).1

/-- Splitting at a separator keeps the prefix before its first occurrence
and everything after it. -/
theorem splitOnce_append (sep : Char) (a b : List Char) (h : sep ∉ a) :
    splitOnce sep (a ++ sep :: b) = (a, b) := by
  induction a with
  | nil => simp [splitOnce]
  | cons c cs ih =>
    have hc : c ≠ sep := fun hc => h (hc ▸ List.mem_cons_self c cs)
    have hcs : sep ∉ cs := fun hm => h (List.mem_cons_of_mem c hm)
    simp [splitOnce, hc, ih hcs]

/-- C10: a locator containing two or more `@` markers is split at the first
one only — the archive path is the prefix before the first `@` and the
member spec is the entire remainder, which may itself contain `@`
characters. -/
theorem C10_split_at_first_marker (env : Env) (maxsize : Nat)
    (a b : List Char) (h : '@' ∉ a) :
    resolveAndDump env maxsize (String.mk (a ++ '@' :: b))
      = zipBranch env maxsize (String.mk a) (String.mk b) := by
  have hmem : '@' ∈ (String.mk (a ++ '@' :: b)).data := by
    show '@' ∈ a ++ '@' :: b
    simp
  unfold resolveAndDump
  rw [if_pos hmem]
  have hs : splitOnce '@' (String.mk (a ++ '@' :: b)).data = (a, b) :=
    splitOnce_append '@' a b h
  rw [hs]

/-- Witness for C10 at the locator `f@g@h`: split as archive `f`, member
`g@h`. -/
theorem C10_witness :
    resolveAndDump (Env.mk (fun _ => none) (fun _ => none)) 9
        (String.mk (['f'] ++ '@' :: ['g', '@', 'h']))
      = zipBranch (Env.mk (fun _ => none) (fun _ => none)) 9
          (String.mk ['f']) (String.mk ['g', '@', 'h']) :=
  C10_split_at_first_marker (Env.mk (fun _ => none) (fun _ => none)) 9
    ['f'] ['g', '@', 'h'] (by decide)

end ShowPickle
